import Mathlib

/-!
Verification of the camera and scene-rigging engine of the 3D corridor
gallery.  The definitions below are a shallow embedding of the relevant
functions of `src/components/Gallery3D.tsx` (and the engine variant in
`src/unnamed/part_000`), with JavaScript numbers modelled as real numbers.
-/

noncomputable section

open Filter Topology

/-- Shallow embedding of `THREE.Vector3`: a triple of real coordinates. -/
structure Vec3 where
  x : ℝ
  y : ℝ
  z : ℝ

/-- `THREE.MathUtils.lerp(x, y, t) = (1 - t) * x + t * y`. -/
def lerp (x y t : ℝ) : ℝ := (1 - t) * x + t * y

/-- `THREE.MathUtils.clamp(value, min, max) = Math.max(min, Math.min(max, value))`. -/
def clamp (value lo hi : ℝ) : ℝ := max lo (min hi value)

/-- `const ITEM_SPACING = 8;` (Gallery3D.tsx line 16). -/
def ITEM_SPACING : ℝ := 8

/-- `const PATH_WIDTH = 6.5;` (Gallery3D.tsx line 17). -/
def PATH_WIDTH : ℝ := 6.5

/-- The analytic path function `getPathPoint` (Gallery3D.tsx lines 20-26):
`x = Math.sin(t * 0.5) * 6`, `y = Math.sin(t * 0.3) * 1.5`,
`z = -t * ITEM_SPACING`. -/
def getPathPoint (t : ℝ) : Vec3 :=
  ⟨Real.sin (t * 0.5) * 6, Real.sin (t * 0.3) * 1.5, -t * ITEM_SPACING⟩

/-- The frame-rate independent damping helper (Gallery3D.tsx lines 29-31):
`damp(current, target, lambda, delta) =
  lerp(current, target, 1 - Math.exp(-lambda * delta))`. -/
def damp (current target lambda delta : ℝ) : ℝ :=
  lerp current target (1 - Real.exp (-lambda * delta))

/-- Iterating `current = damp(current, target, lambda, delta)` over frames. -/
def dampIter (current target lambda delta : ℝ) : ℕ → ℝ
  | 0 => current
  | n + 1 => damp (dampIter current target lambda delta n) target lambda delta

/-- JavaScript `Math.round`: round half toward positive infinity. -/
def jround (x : ℝ) : ℤ := ⌊x + 0.5⌋

/-- `Vector3.sub`: componentwise subtraction. -/
def vsub (a b : Vec3) : Vec3 := ⟨a.x - b.x, a.y - b.y, a.z - b.z⟩

/-- `Vector3.lengthSq = x*x + y*y + z*z`. -/
def normSq (v : Vec3) : ℝ := v.x * v.x + v.y * v.y + v.z * v.z

/-- `Vector3.length = sqrt(lengthSq)`. -/
def vlength (v : Vec3) : ℝ := Real.sqrt (normSq v)

/-- `Vector3.normalize`: divide by `length() || 1` (a zero length is
replaced by 1, as JavaScript `0` is falsy). -/
def vnormalize (v : Vec3) : Vec3 :=
  let s := if vlength v = 0 then 1 else vlength v
  ⟨v.x / s, v.y / s, v.z / s⟩

/-- `Vector3.crossVectors`. -/
def cross (a b : Vec3) : Vec3 :=
  ⟨a.y * b.z - a.z * b.y, a.z * b.x - a.x * b.z, a.x * b.y - a.y * b.x⟩

/-- `Object3D.DEFAULT_UP = (0, 1, 0)`. -/
def upVec : Vec3 := ⟨0, 1, 0⟩

/-- JavaScript `Math.atan2(y, x)`. -/
def atan2 (y x : ℝ) : ℝ :=
  if 0 < x then Real.arctan (y / x)
  else if x < 0 then
    (if 0 ≤ y then Real.arctan (y / x) + Real.pi
     else Real.arctan (y / x) - Real.pi)
  else if 0 < y then Real.pi / 2
  else if y < 0 then -(Real.pi / 2)
  else 0

/-- The local-Z basis column produced by `Object3D.lookAt(target)` for a
non-camera object at `pos`: `Matrix4.lookAt(target, pos, up)` sets
`_z = normalize(target - pos)` (with the three.js degenerate-case guards:
a zero direction becomes `(0, 0, 1)`, and a direction collinear with `up`
is nudged by `0.0001` on z and renormalized). -/
def lookAtZ (pos target : Vec3) : Vec3 :=
  let z0 := vsub target pos
  let z1 := if normSq z0 = 0 then ⟨z0.x, z0.y, 1⟩ else z0
  let z2 := vnormalize z1
  if normSq (cross upVec z2) = 0 then vnormalize ⟨z2.x, z2.y, z2.z + 0.0001⟩
  else z2

/-- The local-X basis column of `Object3D.lookAt`: `normalize(up × z)`. -/
def lookAtX (pos target : Vec3) : Vec3 :=
  vnormalize (cross upVec (lookAtZ pos target))

/-- The local-Y basis column of `Object3D.lookAt`: `z × x`. -/
def lookAtY (pos target : Vec3) : Vec3 :=
  cross (lookAtZ pos target) (lookAtX pos target)

/-- The XYZ-order Euler angles that `Object3D.lookAt` leaves on
`object.rotation` (`Euler.setFromRotationMatrix`, order `'XYZ'`):
`y = asin(clamp(m13, -1, 1))`; when `|m13| < 0.9999999`,
`x = atan2(-m23, m33)` and `z = atan2(-m12, m11)`; otherwise
`x = atan2(m32, m22)` and `z = 0`. -/
def eulerXYZOfLookAt (pos target : Vec3) : Vec3 :=
  let zb := lookAtZ pos target
  let xb := lookAtX pos target
  let yb := lookAtY pos target
  let ey := Real.arcsin (clamp zb.x (-1) 1)
  if |zb.x| < 0.9999999 then
    ⟨atan2 (-zb.y) zb.z, ey, atan2 (-yb.x) xb.x⟩
  else
    ⟨atan2 yb.z yb.y, ey, 0⟩

/-- `isLeft = index % 2 === 0` (Gallery3D.tsx line 154). -/
def panelIsLeft (index : ℕ) : Bool := index % 2 == 0

/-- Panel world position (Gallery3D.tsx lines 153-165): the path point at
`index`, shifted on x by `xOffset = isLeft ? -PATH_WIDTH : PATH_WIDTH`. -/
def panelPos (index : ℕ) : Vec3 :=
  let centerPos := getPathPoint (index : ℝ)
  let xOffset := if panelIsLeft index then -PATH_WIDTH else PATH_WIDTH
  ⟨centerPos.x + xOffset, centerPos.y, centerPos.z⟩

/-- Panel world rotation (Gallery3D.tsx lines 157-163): a dummy object at
`getPathPoint(index)` looks at `getPathPoint(index + 0.5)`, then
`rotation.y += isLeft ? PI/4 : -PI/4`. -/
def panelRot (index : ℕ) : Vec3 :=
  let e := eulerXYZOfLookAt (getPathPoint (index : ℝ))
    (getPathPoint ((index : ℝ) + 0.5))
  let twist := if panelIsLeft index then Real.pi / 4 else -(Real.pi / 4)
  ⟨e.x, e.y + twist, e.z⟩

/-- `isSelected = Math.round(scrollPos) === index` (Gallery3D.tsx line 167). -/
def panelIsSelected (scrollPos : ℝ) (index : ℕ) : Bool :=
  jround scrollPos == (index : ℤ)

/-- The per-frame camera position target (Gallery3D.tsx lines 44-89):
the corridor point at `smoothedRail - 1.2` lifted by 1.5 on y; the x target
is overridden to the detail stand-off when details are open, unless the
rounded scroll position has reached the portal
(`currentIndex >= movies.length`). -/
def cameraPosTarget (scrollPos smoothedRail : ℝ) (isDetailsOpen : Bool)
    (movieCount : ℕ) : Vec3 :=
  let corridorCamPos := getPathPoint (smoothedRail - 1.2)
  let activeIdx : ℤ := jround scrollPos
  let activePathPos := getPathPoint (activeIdx : ℝ)
  let activeMovieX :=
    activePathPos.x + (if activeIdx % 2 = 0 then -PATH_WIDTH else PATH_WIDTH)
  let detailCamX :=
    if activeIdx % 2 = 0 then activeMovieX + 3.5 else activeMovieX - 3.5
  let isPortal := (movieCount : ℤ) ≤ activeIdx
  let targetX :=
    if isPortal then corridorCamPos.x
    else if isDetailsOpen then detailCamX
    else corridorCamPos.x
  ⟨targetX, corridorCamPos.y + 1.5, corridorCamPos.z⟩

/-- `safeIndex = Math.min(Math.max(Math.round(scrollPos), 0),
movies.length - 1)` (Gallery3D.tsx lines 44-45). -/
def safeIndex (scrollPos : ℝ) (movieCount : ℕ) : ℤ :=
  min (max (jround scrollPos) 0) ((movieCount : ℤ) - 1)

/-- The flip target angle of a panel's inner pivot group (Gallery3D.tsx
lines 560-569): `PI` by default; when the poster is revealed
(`isActive && isDetailsOpen`), `desiredWorldRotY - parentRotY` with
`desiredWorldRotY = isLeft ? PI/2 : -PI/2`. -/
def flipTargetAngle (isActive isDetailsOpen isLeft : Bool)
    (parentRotY : ℝ) : ℝ :=
  if isActive && isDetailsOpen then
    (if isLeft then Real.pi / 2 else -(Real.pi / 2)) - parentRotY
  else Real.pi

/-- One frame of the flip animation (Gallery3D.tsx line 571):
`rotation.y = damp(rotation.y, targetRotation, 5, delta)`. -/
def flipAngleStep (angle : ℝ) (isActive isDetailsOpen isLeft : Bool)
    (parentRotY delta : ℝ) : ℝ :=
  damp angle (flipTargetAngle isActive isDetailsOpen isLeft parentRotY) 5 delta

/-- Portal opacity from camera distance (Gallery3D.tsx lines 256-262):
`fadeStart = 25`, `fadeEnd = 8`,
`opacity = clamp(1 - (dist - fadeEnd) / (fadeStart - fadeEnd), 0, 1)`. -/
def portalOpacity (dist : ℝ) : ℝ :=
  let fadeStart : ℝ := 25
  let fadeEnd : ℝ := 8
  clamp (1 - (dist - fadeEnd) / (fadeStart - fadeEnd)) 0 1

/-- The opacity written to every portal material (Gallery3D.tsx line 276):
`material.opacity = opacity * 0.95`. -/
def portalMaterialOpacity (dist : ℝ) : ℝ := portalOpacity dist * 0.95

-- Closed form of one damping step.

theorem damp_closed_form (c t lambda d : ℝ) :
    damp c t lambda d = t + (c - t) * Real.exp (-lambda * d) := by
  unfold damp lerp
  ring

theorem dampIter_closed_form (c t lambda d : ℝ) (n : ℕ) :
    dampIter c t lambda d n = t + (c - t) * Real.exp (-lambda * d) ^ n := by
  induction n with
  | zero => simp [dampIter]
  | succ n ih =>
      rw [dampIter, ih, damp_closed_form]
      ring

/-- Claim C1: the damped follower is chunk-additive: for all real `current`,
`target` and all `lambda ≥ 0`, `dt1 ≥ 0`, `dt2 ≥ 0`, damping for `dt1` and
then for `dt2` equals damping once for `dt1 + dt2`. -/
theorem damp_chunk_additive (current target lambda dt1 dt2 : ℝ)
    (hl : 0 ≤ lambda) (h1 : 0 ≤ dt1) (h2 : 0 ≤ dt2) :
    damp (damp current target lambda dt1) target lambda dt2 =
      damp current target lambda (dt1 + dt2) := by
  rw [damp_closed_form, damp_closed_form, damp_closed_form]
  have : Real.exp (-lambda * dt1) * Real.exp (-lambda * dt2) =
      Real.exp (-lambda * (dt1 + dt2)) := by
    rw [← Real.exp_add]
    ring_nf
  rw [← this]
  ring

/-- Witness for C1 at `current = 1`, `target = 5`, `lambda = 2`,
`dt1 = 3`, `dt2 = 4`. -/
theorem damp_chunk_additive_witness :
    (0 : ℝ) ≤ 2 ∧ (0 : ℝ) ≤ 3 ∧ (0 : ℝ) ≤ 4 ∧
      damp (damp 1 5 2 3) 5 2 4 = damp 1 5 2 (3 + 4) :=
  ⟨by norm_num, by norm_num, by norm_num,
    damp_chunk_additive 1 5 2 3 4 (by norm_num) (by norm_num) (by norm_num)⟩

theorem exp_mem_Ioc_of_nonneg {lambda d : ℝ} (hl : 0 ≤ lambda) (hd : 0 ≤ d) :
    0 < Real.exp (-lambda * d) ∧ Real.exp (-lambda * d) ≤ 1 := by
  refine ⟨Real.exp_pos _, ?_⟩
  rw [show (1 : ℝ) = Real.exp 0 by rw [Real.exp_zero]]
  exact Real.exp_le_exp.mpr (by nlinarith)

theorem exp_lt_one_of_pos {lambda d : ℝ} (hl : 0 < lambda) (hd : 0 < d) :
    Real.exp (-lambda * d) < 1 :=
  Real.exp_lt_one_iff.mpr (by nlinarith)

/-- Claim C2: one damping step stays in the closed interval between `current`
and `target` (never overshoots); `damp(v, v, lambda, dt) = v`;
`damp(current, target, lambda, 0) = current`; and for `lambda > 0`, `dt > 0`
the iteration converges to `target`, with non-increasing distance to the
target and staying on the starting side of the target. -/
theorem damp_no_overshoot_and_converges (current target lambda dt : ℝ)
    (hl : 0 ≤ lambda) (hd : 0 ≤ dt) :
    (min current target ≤ damp current target lambda dt ∧
      damp current target lambda dt ≤ max current target) ∧
    (∀ v : ℝ, damp v v lambda dt = v) ∧
    damp current target lambda 0 = current ∧
    (0 < lambda → 0 < dt →
      Tendsto (dampIter current target lambda dt) atTop (nhds target) ∧
      (∀ n : ℕ, |dampIter current target lambda dt (n + 1) - target| ≤
        |dampIter current target lambda dt n - target|) ∧
      (∀ n : ℕ,
        (current ≤ target → current ≤ dampIter current target lambda dt n ∧
          dampIter current target lambda dt n ≤ target) ∧
        (target ≤ current → target ≤ dampIter current target lambda dt n ∧
          dampIter current target lambda dt n ≤ current))) := by
  obtain ⟨hq0, hq1⟩ := exp_mem_Ioc_of_nonneg hl hd
  refine ⟨?_, ?_, ?_, ?_⟩
  · rw [damp_closed_form]
    rcases le_total current target with h | h
    · rw [min_eq_left h, max_eq_right h]
      constructor <;> nlinarith
    · rw [min_eq_right h, max_eq_left h]
      constructor <;> nlinarith
  · intro v
    rw [damp_closed_form]
    ring
  · rw [damp_closed_form]
    simp
  · intro hlp hdp
    have hqlt : Real.exp (-lambda * dt) < 1 := exp_lt_one_of_pos hlp hdp
    refine ⟨?_, ?_, ?_⟩
    · have hpow : Tendsto (fun n : ℕ => Real.exp (-lambda * dt) ^ n) atTop
          (nhds 0) :=
        tendsto_pow_atTop_nhds_zero_of_lt_one hq0.le hqlt
      have h2 : Tendsto
          (fun n : ℕ => target + (current - target) * Real.exp (-lambda * dt) ^ n)
          atTop (nhds (target + (current - target) * 0)) :=
        ((hpow.const_mul (current - target)).const_add target)
      rw [mul_zero, add_zero] at h2
      refine h2.congr ?_
      intro n
      rw [dampIter_closed_form]
    · intro n
      rw [dampIter_closed_form, dampIter_closed_form]
      have h1 : target + (current - target) * Real.exp (-lambda * dt) ^ (n + 1)
          - target = ((current - target) * Real.exp (-lambda * dt) ^ n) *
            Real.exp (-lambda * dt) := by ring
      have h2 : target + (current - target) * Real.exp (-lambda * dt) ^ n
          - target = (current - target) * Real.exp (-lambda * dt) ^ n := by ring
      rw [h1, h2, abs_mul]
      have := abs_nonneg ((current - target) * Real.exp (-lambda * dt) ^ n)
      have habs : |Real.exp (-lambda * dt)| ≤ 1 := by
        rw [abs_of_pos hq0]
        exact hq1
      nlinarith
    · intro n
      rw [dampIter_closed_form]
      have hpow0 : 0 < Real.exp (-lambda * dt) ^ n := pow_pos hq0 n
      have hpow1 : Real.exp (-lambda * dt) ^ n ≤ 1 := pow_le_one₀ hq0.le hq1
      constructor <;> intro h <;> constructor <;> nlinarith

/-- Witness for C2 at `current = 1`, `target = 0`, `lambda = 2`, `dt = 3`:
the no-overshoot interval bound and the convergence of the iteration,
with the hypotheses discharged concretely. -/
theorem damp_no_overshoot_and_converges_witness :
    (min (1 : ℝ) 0 ≤ damp 1 0 2 3 ∧ damp 1 0 2 3 ≤ max (1 : ℝ) 0) ∧
      Tendsto (dampIter 1 0 2 3) atTop (nhds 0) :=
  ⟨(damp_no_overshoot_and_converges 1 0 2 3 (by norm_num) (by norm_num)).1,
    ((damp_no_overshoot_and_converges 1 0 2 3 (by norm_num)
      (by norm_num)).2.2.2 (by norm_num) (by norm_num)).1⟩

/-- Claim C4: for every real `t`, the path function returns exactly the point
`(sin(t*0.5)*6, sin(t*0.3)*1.5, -t*8)`, with `ITEM_SPACING = 8` the fixed
spacing between consecutive integer rail stations. -/
theorem getPathPoint_formula (t : ℝ) :
    getPathPoint t =
      ⟨Real.sin (t * 0.5) * 6, Real.sin (t * 0.3) * 1.5, -t * 8⟩ ∧
    ITEM_SPACING = 8 :=
  ⟨rfl, rfl⟩

/-- Claim C3: per frame, the y and z camera position targets are the corridor
values `pathPoint(smoothedRail - 1.2).y + 1.5` and
`pathPoint(smoothedRail - 1.2).z` regardless of `detailsOpen`; the x target
is the corridor x when `round(scrollPosition) >= movieCount` (portal mode,
ignoring `detailsOpen`), else the detail stand-off
`activePanelWorldX + 3.5` (even, left) / `activePanelWorldX - 3.5`
(odd, right) when details are open, else the corridor x. -/
theorem camera_target_resolution (sp sr : ℝ) (d : Bool) (n : ℕ) :
    (cameraPosTarget sp sr d n).y = (getPathPoint (sr - 1.2)).y + 1.5 ∧
    (cameraPosTarget sp sr d n).z = (getPathPoint (sr - 1.2)).z ∧
    (cameraPosTarget sp sr d n).x =
      (if (n : ℤ) ≤ jround sp then (getPathPoint (sr - 1.2)).x
       else if d then
         (if Even (jround sp) then
            ((getPathPoint ((jround sp : ℤ) : ℝ)).x - PATH_WIDTH) + 3.5
          else
            ((getPathPoint ((jround sp : ℤ) : ℝ)).x + PATH_WIDTH) - 3.5)
       else (getPathPoint (sr - 1.2)).x) := by
  refine ⟨rfl, rfl, ?_⟩
  unfold cameraPosTarget
  dsimp only
  simp only [Int.even_iff]
  split_ifs <;> ring

/-- Claim C5: for every non-negative integer `index`, the panel sits at
`pathPoint(index)` shifted on x by `-PATH_WIDTH` for even (left) indices and
`+PATH_WIDTH` for odd (right) ones, and its rotation is the look-at Euler
orientation toward `pathPoint(index + 0.5)` with a `+pi/4` (even) /
`-pi/4` (odd) yaw twist. -/
theorem panel_placement_parity (index : ℕ) :
    panelPos index =
      ⟨(getPathPoint (index : ℝ)).x +
          (if Even index then -PATH_WIDTH else PATH_WIDTH),
        (getPathPoint (index : ℝ)).y, (getPathPoint (index : ℝ)).z⟩ ∧
    panelRot index =
      ⟨(eulerXYZOfLookAt (getPathPoint (index : ℝ))
          (getPathPoint ((index : ℝ) + 0.5))).x,
        (eulerXYZOfLookAt (getPathPoint (index : ℝ))
            (getPathPoint ((index : ℝ) + 0.5))).y +
          (if Even index then Real.pi / 4 else -(Real.pi / 4)),
        (eulerXYZOfLookAt (getPathPoint (index : ℝ))
          (getPathPoint ((index : ℝ) + 0.5))).z⟩ := by
  have hiff : panelIsLeft index = true ↔ Even index := by
    simp [panelIsLeft, Nat.even_iff]
  by_cases he : Even index
  · have hb : panelIsLeft index = true := hiff.mpr he
    unfold panelPos panelRot
    rw [hb, if_pos he, if_pos he]
    exact ⟨rfl, rfl⟩
  · have hb : panelIsLeft index = false := by
      rcases Bool.eq_false_or_eq_true (panelIsLeft index) with h | h
      · exact absurd (hiff.mp h) he
      · exact h
    unfold panelPos panelRot
    rw [hb, if_neg he, if_neg he]
    exact ⟨rfl, rfl⟩

/-- Claim C9: for a non-empty artwork list of length `n`, the index used to
read the active artwork is `min(max(round(scrollPos), 0), n - 1)`, which
always lies in `[0, n - 1]`, so the array access is always in range. -/
theorem safe_index_in_bounds (sp : ℝ) (n : ℕ) (hn : 1 ≤ n) :
    safeIndex sp n = min (max (jround sp) 0) ((n : ℤ) - 1) ∧
    0 ≤ safeIndex sp n ∧ safeIndex sp n ≤ (n : ℤ) - 1 ∧
    (safeIndex sp n).toNat < n := by
  have hn' : (1 : ℤ) ≤ (n : ℤ) := by exact_mod_cast hn
  refine ⟨rfl, ?_, ?_, ?_⟩ <;> unfold safeIndex <;> omega

/-- Witness for C9 at `scrollPos = 16.7` with 16 artworks. -/
theorem safe_index_in_bounds_witness :
    0 ≤ safeIndex 16.7 16 ∧ safeIndex 16.7 16 ≤ ((16 : ℕ) : ℤ) - 1 :=
  ⟨(safe_index_in_bounds 16.7 16 (by norm_num)).2.1,
    (safe_index_in_bounds 16.7 16 (by norm_num)).2.2.1⟩

/-- Claim C6: the panel's flip animation targets the Content (revealed) angle
iff `round(scrollPosition) == index` and `detailsOpen`, and targets the
Cover angle `pi` otherwise; and when the target is Cover, one damping frame
never reaches `pi` exactly but strictly shrinks the distance to it, so the
return to Cover is gradual over repeated frames rather than a one-frame
snap. -/
theorem reveal_predicate_and_gradual (sp : ℝ) (index : ℕ) (d l : Bool)
    (pr a delta : ℝ) :
    ((jround sp = (index : ℤ) ∧ d = true) →
      flipTargetAngle (panelIsSelected sp index) d l pr =
        (if l then Real.pi / 2 else -(Real.pi / 2)) - pr) ∧
    (¬(jround sp = (index : ℤ) ∧ d = true) →
      flipTargetAngle (panelIsSelected sp index) d l pr = Real.pi) ∧
    (a ≠ Real.pi →
      flipAngleStep a (panelIsSelected sp index) false l pr delta ≠ Real.pi) ∧
    (a ≠ Real.pi → 0 < delta →
      |flipAngleStep a (panelIsSelected sp index) false l pr delta - Real.pi| <
        |a - Real.pi|) := by
  have hcover : flipTargetAngle (panelIsSelected sp index) false l pr =
      Real.pi := by
    simp [flipTargetAngle]
  refine ⟨?_, ?_, ?_, ?_⟩
  · rintro ⟨hsel, hd⟩
    have hb : panelIsSelected sp index = true := by
      simp [panelIsSelected, hsel]
    rw [hd, hb]
    simp [flipTargetAngle]
  · intro h
    unfold flipTargetAngle
    rw [if_neg]
    intro hc
    rw [Bool.and_eq_true] at hc
    exact h ⟨by simpa [panelIsSelected] using hc.1, hc.2⟩
  · intro ha
    unfold flipAngleStep
    rw [hcover, damp_closed_form]
    intro hc
    have hne : a - Real.pi ≠ 0 := sub_ne_zero.mpr ha
    have := Real.exp_pos (-(5 : ℝ) * delta)
    have : (a - Real.pi) * Real.exp (-(5 : ℝ) * delta) = 0 := by linarith
    rcases mul_eq_zero.mp this with h0 | h0
    · exact hne h0
    · exact (Real.exp_pos _).ne' h0
  · intro ha hdelta
    unfold flipAngleStep
    rw [hcover, damp_closed_form]
    have hq1 : Real.exp (-(5 : ℝ) * delta) < 1 :=
      exp_lt_one_of_pos (by norm_num) hdelta
    have hq0 : 0 < Real.exp (-(5 : ℝ) * delta) := Real.exp_pos _
    have habs : 0 < |a - Real.pi| := abs_pos.mpr (sub_ne_zero.mpr ha)
    have hsimp : Real.pi + (a - Real.pi) * Real.exp (-(5 : ℝ) * delta) -
        Real.pi = (a - Real.pi) * Real.exp (-(5 : ℝ) * delta) := by ring
    rw [hsimp, abs_mul, abs_of_pos hq0]
    nlinarith

/-- Witness for C6 at `scrollPos = 3`, `index = 3`, details open, right-side
panel, `parentRotY = 1`; and one Cover-return damping frame from angle `0`
with `delta = 1`. -/
theorem reveal_predicate_and_gradual_witness :
    flipTargetAngle (panelIsSelected 3 3) true false 1 =
      (if false then Real.pi / 2 else -(Real.pi / 2)) - 1 ∧
    flipTargetAngle (panelIsSelected 3 4) true false 1 = Real.pi ∧
    flipAngleStep 0 (panelIsSelected 3 3) false false 1 1 ≠ Real.pi := by
  have hj : jround (3 : ℝ) = 3 := by
    unfold jround
    rw [Int.floor_eq_iff]
    norm_num
  refine ⟨?_, ?_, ?_⟩
  · exact (reveal_predicate_and_gradual 3 3 true false 1 0 1).1
      ⟨by rw [hj]; norm_num, rfl⟩
  · exact (reveal_predicate_and_gradual 3 4 true false 1 0 1).2.1
      (by rw [not_and]; intro h; exact absurd (hj ▸ h) (by norm_num))
  · exact (reveal_predicate_and_gradual 3 3 false false 1 0 1).2.2.1
      (Ne.symm Real.pi_ne_zero)

/-- Claim C8: portal opacity equals
`clamp(1 - (dist - 8) / (25 - 8), 0, 1)`; it is `0` for every distance
`>= 25`, monotonically non-increasing in distance, and the opacity written
to the portal materials is this value times `0.95`, hence always strictly
below `1`. -/
theorem portal_opacity_spec (dist d1 d2 : ℝ) :
    portalOpacity dist = clamp (1 - (dist - 8) / (25 - 8)) 0 1 ∧
    (25 ≤ dist → portalOpacity dist = 0) ∧
    (d1 ≤ d2 → portalOpacity d2 ≤ portalOpacity d1) ∧
    portalMaterialOpacity dist < 1 := by
  refine ⟨rfl, ?_, ?_, ?_⟩
  · intro h
    unfold portalOpacity clamp
    dsimp only
    have hv : 1 - (dist - 8) / (25 - 8) ≤ 0 := by
      rw [show (25 : ℝ) - 8 = 17 by norm_num, sub_nonpos,
        le_div_iff₀ (by norm_num : (0 : ℝ) < 17)]
      linarith
    rw [min_eq_right (hv.trans (by norm_num)), max_eq_left hv]
  · intro h
    unfold portalOpacity clamp
    dsimp only
    have hmono : 1 - (d2 - 8) / (25 - 8) ≤ 1 - (d1 - 8) / (25 - 8) := by
      have h17 : (0 : ℝ) < 25 - 8 := by norm_num
      have := (div_le_div_iff_of_pos_right h17).mpr
        (sub_le_sub_right h 8)
      linarith
    exact max_le_max le_rfl (min_le_min le_rfl hmono)
  · unfold portalMaterialOpacity
    have hle : portalOpacity dist ≤ 1 := by
      unfold portalOpacity clamp
      dsimp only
      exact max_le (by norm_num) (min_le_left _ _)
    have hge : 0 ≤ portalOpacity dist := by
      unfold portalOpacity clamp
      dsimp only
      exact le_max_left _ _
    nlinarith

/-- Witness for C8: the fade-out at distance 30 and the monotonicity between
distances 1 and 2, with the hypotheses discharged concretely. -/
theorem portal_opacity_spec_witness :
    portalOpacity 30 = 0 ∧ portalOpacity 2 ≤ portalOpacity 1 :=
  ⟨(portal_opacity_spec 30 1 2).2.1 (by norm_num),
    (portal_opacity_spec 30 1 2).2.2.1 (by norm_num)⟩

theorem normScale_pos (v : Vec3) :
    0 < (if vlength v = 0 then 1 else vlength v) := by
  split
  · norm_num
  · rename_i h
    exact lt_of_le_of_ne (Real.sqrt_nonneg _) (Ne.symm h)

theorem vnormalize_x_nonneg {v : Vec3} (h : 0 ≤ v.x) :
    0 ≤ (vnormalize v).x :=
  div_nonneg h (normScale_pos v).le

theorem lookAtZ_x_nonneg {pos target : Vec3}
    (h : 0 ≤ (vsub target pos).x) : 0 ≤ (lookAtZ pos target).x := by
  unfold lookAtZ
  dsimp only
  have hz1 : (0 : ℝ) ≤ (if normSq (vsub target pos) = 0 then
      (⟨(vsub target pos).x, (vsub target pos).y, 1⟩ : Vec3)
      else vsub target pos).x := by
    split <;> exact h
  have hz2 := vnormalize_x_nonneg hz1
  by_cases hc : normSq (cross upVec (vnormalize
      (if normSq (vsub target pos) = 0 then
        (⟨(vsub target pos).x, (vsub target pos).y, 1⟩ : Vec3)
        else vsub target pos))) = 0
  · rw [if_pos hc]
    exact vnormalize_x_nonneg hz2
  · rw [if_neg hc]
    exact hz2

theorem eulerXYZOfLookAt_y (pos target : Vec3) :
    (eulerXYZOfLookAt pos target).y =
      Real.arcsin (clamp (lookAtZ pos target).x (-1) 1) := by
  unfold eulerXYZOfLookAt
  dsimp only
  split <;> rfl

theorem clamp_unit_nonneg {v : ℝ} (h : 0 ≤ v) : 0 ≤ clamp v (-1) 1 :=
  le_trans (le_min (by norm_num) h) (le_max_right _ _)

theorem panelRotY_zero_pos : 0 < (panelRot 0).y := by
  have hleft : panelIsLeft 0 = true := rfl
  have hsin : 0 ≤ (vsub (getPathPoint (((0 : ℕ) : ℝ) + 0.5))
      (getPathPoint ((0 : ℕ) : ℝ))).x := by
    have h025 : (0 : ℝ) < Real.sin 0.25 :=
      Real.sin_pos_of_pos_of_lt_pi (by norm_num)
        (by linarith [Real.pi_gt_three])
    unfold vsub getPathPoint
    dsimp only
    norm_num
    nlinarith [h025]
  have hy : (panelRot 0).y =
      Real.arcsin (clamp (lookAtZ (getPathPoint ((0 : ℕ) : ℝ))
        (getPathPoint (((0 : ℕ) : ℝ) + 0.5))).x (-1) 1) + Real.pi / 4 := by
    unfold panelRot
    dsimp only
    rw [hleft, eulerXYZOfLookAt_y]
    rfl
  rw [hy]
  have harc := Real.arcsin_nonneg.mpr
    (clamp_unit_nonneg (lookAtZ_x_nonneg hsin))
  linarith [Real.pi_pos]

/-- Counterexample to claim C7: the left (even) panel at index 0, when
revealed, is damped toward a Content angle that is NOT the fixed value
`pi/2`: the target is `pi/2 - parentRotY` and the parent yaw of panel 0 is
nonzero, so the pivot's Content target angle depends on the panel's index
and differs from `pi/2`. -/
theorem flip_content_target_counterexample :
    panelIsLeft 0 = true ∧
    flipTargetAngle (panelIsSelected 0 0) true (panelIsLeft 0)
        ((panelRot 0).y) ≠ Real.pi / 2 := by
  have hleft : panelIsLeft 0 = true := rfl
  have hsel : panelIsSelected 0 0 = true := by
    have hj : jround (0 : ℝ) = 0 := by
      unfold jround
      rw [Int.floor_eq_iff] <;> norm_num
    simp [panelIsSelected, hj]
  refine ⟨hleft, ?_⟩
  rw [hsel, hleft]
  simp only [flipTargetAngle, Bool.and_self, if_true]
  intro hc
  have h0 : (panelRot 0).y = 0 := by linarith
  exact absurd h0 panelRotY_zero_pos.ne'

/-- Claim C7 (amended): the flip reveal damps the inner pivot between the
fixed Cover angle `pi` and a Content angle equal to `pi/2` (left) or
`-pi/2` (right) MINUS the panel's parent yaw, so that it is the targeted
world yaw, parent yaw plus pivot angle, that is the fixed symmetric
`+pi/2` / `-pi/2` per side; left and right senses are mirrored
(the two world targets are negatives of each other). -/
theorem flip_angles_amended (a d l : Bool) (pr : ℝ) :
    flipTargetAngle a false l pr = Real.pi ∧
    flipTargetAngle false d l pr = Real.pi ∧
    flipTargetAngle true true true pr = Real.pi / 2 - pr ∧
    flipTargetAngle true true false pr = -(Real.pi / 2) - pr ∧
    pr + flipTargetAngle true true true pr =
      -(pr + flipTargetAngle true true false pr) := by
  refine ⟨?_, ?_, ?_, ?_, ?_⟩ <;> simp [flipTargetAngle] <;> ring

/-- Claim C10: for every panel index, the revealed flip target is computed
as the side's desired world yaw minus the parent yaw, so the parent yaw
plus the local flip target is exactly `pi/2` for left (even) panels and
exactly `-pi/2` for right (odd) panels, regardless of the path tangent and
twist at that index; and the Cover local target is always exactly `pi`. -/
theorem flip_world_yaw (index : ℕ) (d : Bool) (pr : ℝ) :
    (panelRot index).y +
        flipTargetAngle true true (panelIsLeft index) ((panelRot index).y) =
      (if panelIsLeft index then Real.pi / 2 else -(Real.pi / 2)) ∧
    flipTargetAngle false d (panelIsLeft index) pr = Real.pi := by
  constructor
  · unfold flipTargetAngle
    cases h : panelIsLeft index <;> simp <;> ring
  · simp [flipTargetAngle]
